import Mathlib

/-!
# Verification of the radial ego-graph layout (`RadialEgoGraph.tsx`)

Shallow embedding of the radial recommendation-graph component of the
repository.  JavaScript numbers are modelled by `ℚ` (all the arithmetic the
claims touch is exact on the inputs involved); a JS value that can be
`NaN`/`±Infinity`/`undefined` is modelled by an `Option`.
-/

/-- The node type tags of the backend contract
(`type: "event" | "person" | "topic" | "venue" | "cohort"`).  A runtime node
whose `type` field is missing or not one of these is modelled by `none` at
the use sites. -/
inductive NodeType where
  | event | person | topic | venue | cohort
deriving DecidableEq, Repr

/-- Model of `GraphNode` of the backend contract.  `id` and `type` are `Option`s so
that malformed runtime payloads (missing fields) can be expressed; a
well-formed payload has them present.  `starts_at` holds the result of
`Date.parse(n.starts_at || "")` in milliseconds, `none` standing for `NaN`
(missing or unparsable timestamp). -/
structure GraphNode where
  id : Option String := none
  type : Option NodeType := none
  label : String := ""
  ring : Int := 0
  topic : Option String := none
  starts_at : Option ℚ := none
  score : ℚ := 0
  social_count : Option ℚ := none
  poster_url : Option String := none
  event_id : Option String := none
deriving DecidableEq, Repr

/-- A radius band of the layout (`RING_BANDS` entries). -/
structure RingBand where
  min : ℚ
  max : ℚ
  spanSec : ℚ
deriving DecidableEq, Repr

def band0 : RingBand := ⟨130, 190, 24 * 3600⟩
def band1 : RingBand := ⟨210, 290, 7 * 24 * 3600⟩
def band2 : RingBand := ⟨310, 390, 0⟩

/-- Constant `RING_BANDS` from the source: Today, Next 7 days, Later. -/
def RING_BANDS : List RingBand := [band0, band1, band2]

/-- Function `radiusForTime` from the source.  `now` is `Date.now()` in milliseconds,
`horizonSec` the dynamically computed horizon in seconds.  A `none`
`starts_at` is the `Number.isNaN(ts)` branch and returns
`RING_BANDS[2].max`. -/
def radiusForTime (n : GraphNode) (now horizonSec : ℚ) : ℚ :=
  match n.starts_at with
  | none => band2.max
  | some ts =>
    let dt := max 0 ((ts - now) / 1000)
    if dt ≤ 24 * 3600 then
      band0.min + (dt / band0.spanSec) * (band0.max - band0.min)
    else if dt ≤ 7 * 24 * 3600 then
      band1.min + ((dt - 24 * 3600) / (band1.spanSec - 24 * 3600)) * (band1.max - band1.min)
    else
      let t := if 0 < horizonSec then min 1 (dt / horizonSec) else (0.5 : ℚ)
      band2.min + t * (band2.max - band2.min)

/-- Function `horizonSec` from the source: `Math.max(24*3600, ...fut, 24*3600)` over
the future event deltas (seconds) of the working set. -/
def horizonSec (eventNodes : List GraphNode) (now : ℚ) : ℚ :=
  let fut := ((eventNodes.filterMap (fun n => n.starts_at)).filter
      (fun ts => now < ts)).map (fun ts => (ts - now) / 1000)
  fut.foldl max (24 * 3600)

/- ---------------- Working set: top-10 event nodes ---------------- -/

/-- The filter of the working set: `n.type === "event"`.  A node with a
missing or non-event `type` fails this test; this is the only predicate the
source filters on. -/
def isEventNode (n : GraphNode) : Bool := n.type == some NodeType.event

/-- One step of the stable descending insertion sort modelling
`evs.sort((a, b) => b.score - a.score)`: `a` is placed before the first
already-sorted element whose score is at most that of `a` (so on ties the
earlier payload element stays first, as the stable ECMAScript `Array.prototype.sort`
guarantees). -/
def insertByScore (a : GraphNode) : List GraphNode → List GraphNode
  | [] => [a]
  | b :: l => if b.score ≤ a.score then a :: b :: l else b :: insertByScore a l

/-- Stable sort by descending `score`, modelling the ECMAScript stable
`Array.prototype.sort` with comparator `(a, b) => b.score - a.score`. -/
def sortByScoreDesc : List GraphNode → List GraphNode
  | [] => []
  | a :: l => insertByScore a (sortByScoreDesc l)

/-- Function `eventNodes` from the source: filter to `type === "event"`, stable-sort
by descending score, `slice(0, 10)`. -/
def eventNodes (nodes : List GraphNode) : List GraphNode :=
  (sortByScoreDesc (nodes.filter isEventNode)).take 10

/- ---------------- String hash, angle, topic color ---------------- -/

/-- ECMAScript `| 0`: wrap an integer into the signed 32-bit range. -/
def toInt32 (n : Int) : Int := (n + 2 ^ 31) % 2 ^ 32 - 2 ^ 31

/-- Function `hashStr` from the source:
`let h = 0; for (...) h = ((h << 5) - h + s.charCodeAt(i)) | 0;`.
`h << 5` is the 32-bit-wrapped `h * 32`; the outer `| 0` wraps the sum.
Characters are taken as their code points (the source reads UTF-16 code
units, which agree on the basic multilingual plane). -/
def hashStr (s : String) : Int :=
  s.data.foldl (fun h c => toInt32 (toInt32 (h * 32) - h + c.toNat)) 0

/-- The fixed qualitative topic palette `TOPIC_COLORS`. -/
def TOPIC_COLORS : List String :=
  ["#1b9e77", "#d95f02", "#7570b3", "#e7298a",
   "#66a61e", "#e6ab02", "#a6761d", "#666666"]

/-- The reserved fallback color `OTHER_TOPIC_COLOR` for uncategorized
events. -/
def OTHER_TOPIC_COLOR : String := "#93c5fd"

/-- JS `String.prototype.trim`: drop whitespace from both ends.  (Agrees
with the browser built-in on the ASCII whitespace the repository uses.) -/
def jsTrim (s : String) : String :=
  String.mk (((s.data.dropWhile Char.isWhitespace).reverse.dropWhile
    Char.isWhitespace).reverse)

/-- JS `String.prototype.toLowerCase`, faithful on ASCII. -/
def jsToLower (s : String) : String := String.mk (s.data.map Char.toLower)

/-- Function `topicColor` from the source.  `none` models a missing (`null` or
`undefined`) topic; the source test `if (!topic)` is also true for the empty
string, hence the explicit `tp = ""` test. -/
def topicColor (topic : Option String) : String :=
  match topic with
  | none => OTHER_TOPIC_COLOR
  | some tp =>
    if tp = "" then OTHER_TOPIC_COLOR
    else
      let t := jsTrim tp
      if t.length = 0 then OTHER_TOPIC_COLOR
      else if jsToLower t = "other" then OTHER_TOPIC_COLOR
      else TOPIC_COLORS.getD ((hashStr t).natAbs % TOPIC_COLORS.length) ""

/-- The golden-ratio fraction `phi = 0.61803398875` from the source. -/
def phi : ℚ := 0.61803398875

/-- ECMAScript `x % 1` for a non-negative `x`: the fractional part.  (JS `%`
truncates toward zero, which agrees with `x - ⌊x⌋` on the non-negative
arguments this model is applied to.) -/
def jsMod1 (x : ℚ) : ℚ := x - ⌊x⌋

/-- Function `angleForEvent` from the source, as a function of the id string of the node,
returning the angle as a fraction of a full turn:
`((Math.abs(hashStr(id)) * phi) % 1)`.  The source multiplies this by
`Math.PI * 2`; the `2π` factor is kept symbolic so the definition stays in
`ℚ`. -/
def angleForEvent (id : String) : ℚ :=
  jsMod1 (((hashStr id).natAbs : ℚ) * phi)

/- ---------------- Size scale ---------------- -/

/-- Function `nodeValScale` from the source:
`(s) => 60*(0.4+(s-Math.min(...scores))/(Math.max(...scores)-Math.min(...scores)))`.
The arithmetic is carried out on JS doubles, so a zero denominator makes the
whole expression non-finite (`0/0 = NaN`, `x/0 = ±Infinity`); `none` models
that non-finite outcome, as well as the empty-scores case
(`Math.min() = Infinity`, `Math.max() = -Infinity`). -/
def nodeValScale (scores : List ℚ) (s : ℚ) : Option ℚ :=
  match scores.min?, scores.max? with
  | some mn, some mx =>
      if mx - mn = 0 then none
      else some (60 * (0.4 + (s - mn) / (mx - mn)))
  | _, _ => none

/- ---------------- Ingestion / enrichment ---------------- -/

/-- JS `String(x)` on a possibly-`undefined` string. -/
def jsString : Option String → String
  | none => "undefined"
  | some s => s

/-- JS `String.prototype.startsWith`. -/
def jsStartsWith (s pre : String) : Bool := pre.data.isPrefixOf s.data

/-- JS `String.prototype.slice(k)` for `0 ≤ k`: drop the first `k`
characters. -/
def jsSlice (s : String) (k : Nat) : String := String.mk (s.data.drop k)

/-- The `event_id` derivation of the fetch enrichment: for `event`-type
nodes, the id string with a leading `"event:"` stripped, else the id string
itself; non-event nodes get no `event_id`. -/
def deriveEventId (n : GraphNode) : Option String :=
  if n.type == some NodeType.event then
    let idStr := jsString n.id
    some (if jsStartsWith idStr "event:" then jsSlice idStr 6 else idStr)
  else none

/-- Enrichment (per node) from the fetch handler: attach the derived
`event_id`; every other field passes through unchanged (the source also
defaults `poster_url` to `null`, which the `Option` field already
expresses). -/
def enrich (n : GraphNode) : GraphNode := { n with event_id := deriveEventId n }

/-- The enriched node list stored by the fetch handler. -/
def enriched (nodes : List GraphNode) : List GraphNode := nodes.map enrich

/- ---------------- Click navigation ---------------- -/

/-- The outcome of `handleNodeClick`: invoke the `onEventClick` callback,
assign `window.location.href`, or do nothing. -/
inductive ClickAction where
  | callbackNav (eventId : String)
  | locationNav (path : String)
  | noNav
deriving DecidableEq, Repr

/-- JS truthiness of the (string-valued, possibly absent) `event_id`. -/
def truthyId : Option String → Bool
  | none => false
  | some s => s ≠ ""

/-- Function `handleNodeClick` from the source.  `hasCallback` records whether an
`onEventClick` prop was supplied; `enc` stands for the browser built-in
`encodeURIComponent`.  The function is total: a click never throws. -/
def handleNodeClick (hasCallback : Bool) (enc : String → String)
    (n : GraphNode) : ClickAction :=
  if n.type == some NodeType.event && truthyId n.event_id then
    let eid := n.event_id.getD ""
    if hasCallback then ClickAction.callbackNav eid
    else ClickAction.locationNav ("/events/eventpage/" ++ enc eid)
  else ClickAction.noNav

/- ---------------- The per-band interpolation of the spec ---------------- -/

/-- The radius mapping exactly as the specification words it, for comparison
with `radiusForTime`: "within a band, linear interpolation by fractional
position is applied", over the bands Today `[0, 24h]` → `[130, 190]`,
Next-7-days `(24h, 7d]` → `[210, 290]`, Later `(7d, horizon]` →
`[310, 390]`.  `dt` is the clamped time delta in seconds. -/
def radiusFracPosSpec (dt horizon : ℚ) : ℚ :=
  if dt ≤ 24 * 3600 then
    130 + (dt / (24 * 3600)) * (190 - 130)
  else if dt ≤ 7 * 24 * 3600 then
    210 + ((dt - 24 * 3600) / (7 * 24 * 3600 - 24 * 3600)) * (290 - 210)
  else
    310 + ((dt - 7 * 24 * 3600) / (horizon - 7 * 24 * 3600)) * (390 - 310)

/-- A payload of 15 event nodes with strictly descending scores
15, 14, …, 1 (the ranking example of the spec). -/
def ex15 : List GraphNode :=
  [ { type := some NodeType.event, label := "a", score := 15 },
    { type := some NodeType.event, label := "b", score := 14 },
    { type := some NodeType.event, label := "c", score := 13 },
    { type := some NodeType.event, label := "d", score := 12 },
    { type := some NodeType.event, label := "e", score := 11 },
    { type := some NodeType.event, label := "f", score := 10 },
    { type := some NodeType.event, label := "g", score := 9 },
    { type := some NodeType.event, label := "h", score := 8 },
    { type := some NodeType.event, label := "i", score := 7 },
    { type := some NodeType.event, label := "j", score := 6 },
    { type := some NodeType.event, label := "k", score := 5 },
    { type := some NodeType.event, label := "l", score := 4 },
    { type := some NodeType.event, label := "m", score := 3 },
    { type := some NodeType.event, label := "n", score := 2 },
    { type := some NodeType.event, label := "o", score := 1 } ]

/-- A payload of 11 event nodes whose 10th and 11th nodes tie on score: the
stable sort must keep the 10th payload node and drop the 11th. -/
def exTie : List GraphNode :=
  [ { type := some NodeType.event, label := "a", score := 20 },
    { type := some NodeType.event, label := "b", score := 19 },
    { type := some NodeType.event, label := "c", score := 18 },
    { type := some NodeType.event, label := "d", score := 17 },
    { type := some NodeType.event, label := "e", score := 16 },
    { type := some NodeType.event, label := "f", score := 15 },
    { type := some NodeType.event, label := "g", score := 14 },
    { type := some NodeType.event, label := "h", score := 13 },
    { type := some NodeType.event, label := "i", score := 12 },
    { type := some NodeType.event, label := "tieFirst", score := 11 },
    { type := some NodeType.event, label := "tieSecond", score := 11 } ]

/-- The malformed node of the C8 counterexample: type `event` but no `id`. -/
def noIdNode : GraphNode := { id := none, type := some NodeType.event, score := 5 }

/- ---------------- Helper lemmas ---------------- -/

/- Concrete sanity checks of the embedding. -/

example : radiusForTime { starts_at := some 7200000 } 0 86400 = 135 := by
  norm_num [radiusForTime, band0, band1, band2]
example : radiusForTime { starts_at := some 691200000 } 0 1382400 = 350 := by
  norm_num [radiusForTime, band0, band1, band2]
example : radiusForTime { starts_at := none } 0 86400 = 390 := by
  norm_num [radiusForTime, band2]
example : horizonSec [{ starts_at := some 1000000 }] 0 = 86400 := by
  simp [horizonSec]
  norm_num


example : hashStr "Music" = 74710533 := by decide
example : topicColor (some "Music") = "#e6ab02" := by decide
example : topicColor (some "OTHER") = OTHER_TOPIC_COLOR := by decide
example : topicColor none = OTHER_TOPIC_COLOR := by decide


example : nodeValScale [5] 5 = none := by simp [nodeValScale]
example : nodeValScale [1, 3] 3 = some 84 := by
  simp [nodeValScale]
  norm_num
example : handleNodeClick true (fun s => s) { type := some NodeType.event } =
    ClickAction.noNav := by decide
example : deriveEventId { id := some "event:42", type := some NodeType.event } =
    some "42" := by decide


theorem le_foldl_max (l : List ℚ) (a : ℚ) : a ≤ l.foldl max a := by
  induction l generalizing a with
  | nil => exact le_refl a
  | cons x l ih => exact le_trans (le_max_left a x) (ih (max a x))

theorem insertByScore_perm (a : GraphNode) (l : List GraphNode) :
    List.Perm (insertByScore a l) (a :: l) := by
  induction l with
  | nil => exact List.Perm.refl [a]
  | cons b l ih =>
    by_cases h : b.score ≤ a.score
    · simp only [insertByScore, if_pos h]
      exact List.Perm.refl _
    · simp only [insertByScore, if_neg h]
      exact List.Perm.trans (List.Perm.cons b ih) (List.Perm.swap a b l)

theorem insertByScore_pairwise (a : GraphNode) (l : List GraphNode)
    (hl : l.Pairwise (fun x y => y.score ≤ x.score)) :
    (insertByScore a l).Pairwise (fun x y => y.score ≤ x.score) := by
  induction l with
  | nil => simp [insertByScore]
  | cons b l ih =>
    rcases List.pairwise_cons.mp hl with ⟨hb, hl2⟩
    by_cases h : b.score ≤ a.score
    · simp only [insertByScore, if_pos h]
      refine List.pairwise_cons.mpr ⟨?_, hl⟩
      intro c hc
      rcases List.mem_cons.mp hc with rfl | hc2
      · exact h
      · exact le_trans (hb c hc2) h
    · simp only [insertByScore, if_neg h]
      refine List.pairwise_cons.mpr ⟨?_, ih hl2⟩
      intro c hc
      rcases List.mem_cons.mp ((insertByScore_perm a l).mem_iff.mp hc) with rfl | hc2
      · exact le_of_lt (lt_of_not_le h)
      · exact hb c hc2

theorem sublist_insertByScore (a : GraphNode) (l : List GraphNode) :
    l.Sublist (insertByScore a l) := by
  induction l with
  | nil => simp [insertByScore]
  | cons b l ih =>
    by_cases h : b.score ≤ a.score
    · simp only [insertByScore, if_pos h]
      exact List.sublist_cons_self a (b :: l)
    · simp only [insertByScore, if_neg h]
      exact List.Sublist.cons₂ b ih

theorem pair_sublist_insertByScore (a b : GraphNode) (l : List GraphNode)
    (hl : l.Pairwise (fun x y => y.score ≤ x.score))
    (hb : b ∈ l) (hba : b.score ≤ a.score) :
    [a, b].Sublist (insertByScore a l) := by
  induction l with
  | nil => cases hb
  | cons c l ih =>
    rcases List.pairwise_cons.mp hl with ⟨hc, hl2⟩
    by_cases h : c.score ≤ a.score
    · simp only [insertByScore, if_pos h]
      exact List.Sublist.cons₂ a (List.singleton_sublist.mpr hb)
    · simp only [insertByScore, if_neg h]
      rcases List.mem_cons.mp hb with rfl | hb2
      · exact absurd hba h
      · exact List.Sublist.cons c (ih hl2 hb2)

theorem sortByScoreDesc_perm :
    ∀ l : List GraphNode, List.Perm (sortByScoreDesc l) l := by
  intro l
  induction l with
  | nil => exact List.Perm.refl []
  | cons a l ih =>
    exact List.Perm.trans (insertByScore_perm a (sortByScoreDesc l))
      (List.Perm.cons a ih)

theorem sortByScoreDesc_pairwise :
    ∀ l : List GraphNode,
      (sortByScoreDesc l).Pairwise (fun x y => y.score ≤ x.score) := by
  intro l
  induction l with
  | nil => simp [sortByScoreDesc]
  | cons a l ih => exact insertByScore_pairwise a _ ih

theorem radiusForTime_some_bounds (ts now h : ℚ) (n : GraphNode)
    (hst : n.starts_at = some ts) :
    130 ≤ radiusForTime n now h ∧ radiusForTime n now h ≤ 390 := by
  unfold radiusForTime
  rw [hst]
  simp only [band0, band1, band2]
  set dt := max 0 ((ts - now) / 1000) with hdt
  have hdt0 : (0 : ℚ) ≤ dt := le_max_left _ _
  by_cases h1 : dt ≤ 24 * 3600
  · rw [if_pos h1]
    constructor <;> nlinarith
  · rw [if_neg h1]
    by_cases h2 : dt ≤ 7 * 24 * 3600
    · rw [if_pos h2]
      push_neg at h1
      constructor <;> nlinarith
    · rw [if_neg h2]
      by_cases h3 : 0 < h
      · rw [if_pos h3]
        have hq0 : (0 : ℚ) ≤ dt / h := div_nonneg hdt0 (le_of_lt h3)
        have hmin0 : (0 : ℚ) ≤ min 1 (dt / h) := le_min (by norm_num) hq0
        have hmin1 : min 1 (dt / h) ≤ 1 := min_le_left _ _
        constructor <;> nlinarith
      · rw [if_neg h3]
        norm_num

theorem sortByScoreDesc_stable (a b : GraphNode) :
    ∀ l : List GraphNode, [a, b].Sublist l → b.score ≤ a.score →
      [a, b].Sublist (sortByScoreDesc l) := by
  intro l
  induction l with
  | nil =>
    intro h
    cases h
  | cons c l ih =>
    intro h hba
    cases h with
    | cons _ h2 =>
      exact List.Sublist.trans (ih h2 hba) (sublist_insertByScore c _)
    | cons₂ _ h2 =>
      exact pair_sublist_insertByScore a b _ (sortByScoreDesc_pairwise l)
        ((sortByScoreDesc_perm l).mem_iff.mpr (List.singleton_sublist.mp h2)) hba

theorem radiusForTime_band0_value (n : GraphNode) (now h ts : ℚ)
    (hst : n.starts_at = some ts)
    (h1 : max 0 ((ts - now) / 1000) ≤ 24 * 3600) :
    radiusForTime n now h = 130 + max 0 ((ts - now) / 1000) / (24 * 3600) * 60 := by
  unfold radiusForTime
  rw [hst]
  simp only [band0, band1, band2]
  rw [if_pos h1]
  norm_num

theorem radiusForTime_band1_value (n : GraphNode) (now h ts : ℚ)
    (hst : n.starts_at = some ts)
    (h1 : ¬ max 0 ((ts - now) / 1000) ≤ 24 * 3600)
    (h2 : max 0 ((ts - now) / 1000) ≤ 7 * 24 * 3600) :
    radiusForTime n now h
      = 210 + (max 0 ((ts - now) / 1000) - 24 * 3600) / (6 * 24 * 3600) * 80 := by
  unfold radiusForTime
  rw [hst]
  simp only [band0, band1, band2]
  rw [if_neg h1, if_pos h2]
  norm_num

theorem radiusForTime_band2_value (n : GraphNode) (now h ts : ℚ)
    (hst : n.starts_at = some ts)
    (h2 : ¬ max 0 ((ts - now) / 1000) ≤ 7 * 24 * 3600) (hh : 0 < h) :
    radiusForTime n now h
      = 310 + min 1 (max 0 ((ts - now) / 1000) / h) * 80 := by
  have h1 : ¬ max 0 ((ts - now) / 1000) ≤ 24 * 3600 := by
    intro hc
    exact h2 (le_trans hc (by norm_num))
  unfold radiusForTime
  rw [hst]
  simp only [band0, band1, band2]
  rw [if_neg h1, if_neg h2, if_pos hh]
  norm_num

theorem radiusForTime_band2_lower (n : GraphNode) (now h ts : ℚ)
    (hst : n.starts_at = some ts)
    (h2 : ¬ max 0 ((ts - now) / 1000) ≤ 7 * 24 * 3600) :
    310 ≤ radiusForTime n now h := by
  by_cases hh : 0 < h
  · rw [radiusForTime_band2_value n now h ts hst h2 hh]
    have hd0 : (0 : ℚ) ≤ max 0 ((ts - now) / 1000) := le_max_left _ _
    have hq0 : (0 : ℚ) ≤ max 0 ((ts - now) / 1000) / h :=
      div_nonneg hd0 (le_of_lt hh)
    have hmin : (0 : ℚ) ≤ min 1 (max 0 ((ts - now) / 1000) / h) :=
      le_min (by norm_num) hq0
    nlinarith
  · have h1 : ¬ max 0 ((ts - now) / 1000) ≤ 24 * 3600 := by
      intro hc
      exact h2 (le_trans hc (by norm_num))
    unfold radiusForTime
    rw [hst]
    simp only [band0, band1, band2]
    rw [if_neg h1, if_neg h2, if_neg hh]
    norm_num

/- ---------------- Claim theorems ---------------- -/

/-- C10: `radiusForTime` is a total function whose result always lies in
`[130, 390]` — for every node (`starts_at` missing, unparsable, past, or
arbitrarily far in the future) and every horizon (the dynamic horizon always
satisfies `horizonSec ≥ 24h`), the radius is a well-defined value in that
closed interval; the Later band is capped at 390 by the `min(1, dt/horizon)`
clamp. -/
theorem radiusForTime_total_bounds :
    (∀ (n : GraphNode) (now h : ℚ),
      130 ≤ radiusForTime n now h ∧ radiusForTime n now h ≤ 390)
  ∧ (∀ (evs : List GraphNode) (now : ℚ), 24 * 3600 ≤ horizonSec evs now) := by
  constructor
  · intro n now h
    cases hst : n.starts_at with
    | none =>
      unfold radiusForTime
      rw [hst]
      norm_num [band2]
    | some ts => exact radiusForTime_some_bounds ts now h n hst
  · intro evs now
    exact le_foldl_max _ _

/-- C7: a node whose `starts_at` is missing or unparsable gets the outer
edge of the Later band (radius 390) — it is not excluded from the candidate
set and no error is raised (the function is total); a node whose `starts_at`
lies in the past clamps to `dt = 0` and gets the inner edge of the Today
band (radius 130). -/
theorem radiusForTime_edge_cases (n : GraphNode) (now h : ℚ) :
    (n.starts_at = none → radiusForTime n now h = 390)
  ∧ (∀ ts, n.starts_at = some ts → ts ≤ now → radiusForTime n now h = 130)
  ∧ (∀ nodes : List GraphNode, isEventNode n = true → n ∈ nodes →
      n ∈ nodes.filter isEventNode) := by
  refine ⟨?_, ?_, ?_⟩
  · intro hst
    unfold radiusForTime
    rw [hst]
    norm_num [band2]
  · intro ts hst hpast
    have hq : (ts - now) / 1000 ≤ 0 := by
      apply div_nonpos_of_nonpos_of_nonneg <;> linarith
    have hdt : max 0 ((ts - now) / 1000) = 0 := max_eq_left hq
    unfold radiusForTime
    rw [hst]
    simp only [band0, band1, band2]
    rw [hdt]
    norm_num
  · intro nodes hev hmem
    exact List.mem_filter.mpr ⟨hmem, hev⟩

/-- Witness for C7 at concrete inputs: a missing timestamp yields radius
390, a timestamp 5000 ms in the past yields radius 130, and an event node
survives the filter. -/
theorem radiusForTime_edge_cases_witness :
    radiusForTime { starts_at := none } 0 86400 = 390
  ∧ radiusForTime { starts_at := some (-5000) } 0 86400 = 130
  ∧ ({ type := some NodeType.event } : GraphNode) ∈
      List.filter isEventNode [{ type := some NodeType.event }] := by
  refine ⟨?_, ?_, ?_⟩
  · exact (radiusForTime_edge_cases { starts_at := none } 0 86400).1 rfl
  · exact (radiusForTime_edge_cases { starts_at := some (-5000) } 0 86400).2.1
      (-5000) rfl (by norm_num)
  · exact (radiusForTime_edge_cases { type := some NodeType.event } 0 86400).2.2
      _ (by decide) (List.mem_singleton.mpr rfl)

/-- C1 (amended): `radiusForTime` maps the Today band (`dt ∈ [0, 24h]`) into
`[130, 190]` and the Next-7-days band (`dt ∈ (24h, 7d]`) into `(210, 290]`,
in both cases by linear interpolation at the fractional position within the
band (agreeing with the spec-worded `radiusFracPosSpec`); the Later band
(`dt > 7d`) lands in `(310, 390]` but is interpolated by `min(1, dt/horizon)`
— the fraction of the whole horizon — rather than by fractional position
within the band.  A node whose `starts_at` is 2 hours after `now` gets
radius 135, strictly inside `(130, 190)`. -/
theorem radiusForTime_band_mapping :
    (∀ (n : GraphNode) (now h ts dt : ℚ), n.starts_at = some ts →
        max 0 ((ts - now) / 1000) = dt → dt ≤ 24 * 3600 →
        radiusForTime n now h = radiusFracPosSpec dt h
        ∧ 130 ≤ radiusForTime n now h ∧ radiusForTime n now h ≤ 190)
  ∧ (∀ (n : GraphNode) (now h ts dt : ℚ), n.starts_at = some ts →
        max 0 ((ts - now) / 1000) = dt → 24 * 3600 < dt → dt ≤ 7 * 24 * 3600 →
        radiusForTime n now h = radiusFracPosSpec dt h
        ∧ 210 < radiusForTime n now h ∧ radiusForTime n now h ≤ 290)
  ∧ (∀ (n : GraphNode) (now h ts dt : ℚ), n.starts_at = some ts →
        max 0 ((ts - now) / 1000) = dt → 7 * 24 * 3600 < dt → 0 < h →
        radiusForTime n now h = 310 + min 1 (dt / h) * 80
        ∧ 310 < radiusForTime n now h ∧ radiusForTime n now h ≤ 390)
  ∧ (∀ now : ℚ,
        radiusForTime { starts_at := some (now + 7200000) } now 86400 = 135
        ∧ (130 : ℚ) < 135 ∧ (135 : ℚ) < 190) := by
  refine ⟨?_, ?_, ?_, ?_⟩
  · intro n now h ts dt hst hdt h1
    have hdt0 : (0 : ℚ) ≤ dt := hdt ▸ le_max_left _ _
    have hr : radiusForTime n now h = 130 + dt / (24 * 3600) * 60 := by
      unfold radiusForTime
      rw [hst]
      simp only [band0, band1, band2]
      rw [hdt, if_pos h1]
      norm_num
    have hs : radiusFracPosSpec dt h = 130 + dt / (24 * 3600) * 60 := by
      unfold radiusFracPosSpec
      rw [if_pos h1]
      norm_num
    rw [hr, hs]
    refine ⟨rfl, by nlinarith, by nlinarith⟩
  · intro n now h ts dt hst hdt h1 h2
    have hr : radiusForTime n now h
        = 210 + (dt - 24 * 3600) / (6 * 24 * 3600) * 80 := by
      unfold radiusForTime
      rw [hst]
      simp only [band0, band1, band2]
      rw [hdt, if_neg (not_le.mpr h1), if_pos h2]
      norm_num
    have hs : radiusFracPosSpec dt h
        = 210 + (dt - 24 * 3600) / (6 * 24 * 3600) * 80 := by
      unfold radiusFracPosSpec
      rw [if_neg (not_le.mpr h1), if_pos h2]
      norm_num
    rw [hr, hs]
    refine ⟨rfl, by nlinarith, by nlinarith⟩
  · intro n now h ts dt hst hdt h2 hh
    have hn1 : ¬ dt ≤ 24 * 3600 := not_le.mpr (by linarith)
    have hn2 : ¬ dt ≤ 7 * 24 * 3600 := not_le.mpr h2
    have hr : radiusForTime n now h = 310 + min 1 (dt / h) * 80 := by
      unfold radiusForTime
      rw [hst]
      simp only [band0, band1, band2]
      rw [hdt, if_neg hn1, if_neg hn2, if_pos hh]
      norm_num
    have hmin0 : 0 < min 1 (dt / h) :=
      lt_min (by norm_num) (div_pos (by linarith) hh)
    have hmin1 : min 1 (dt / h) ≤ 1 := min_le_left _ _
    rw [hr]
    refine ⟨rfl, by nlinarith, by nlinarith⟩
  · intro now
    have harg : (now + 7200000 - now) / 1000 = 7200 := by ring
    refine ⟨?_, by norm_num, by norm_num⟩
    unfold radiusForTime
    simp only [band0, band1, band2]
    rw [harg]
    norm_num

/-- Witness for C1 (amended) at concrete inputs: for a node 2 days out with
a 1-day horizon the radius agrees with the spec-worded fractional-position
interpolation, and the 2-hour node gets radius 135. -/
theorem radiusForTime_band_mapping_witness :
    radiusForTime { starts_at := some 172800000 } 0 86400
      = radiusFracPosSpec 172800 86400
  ∧ radiusForTime { starts_at := some 7200000 } 0 86400 = 135 := by
  constructor
  · exact (radiusForTime_band_mapping.2.1 { starts_at := some 172800000 }
      0 86400 172800000 172800 rfl (by norm_num) (by norm_num) (by norm_num)).1
  · have h135 := (radiusForTime_band_mapping.2.2.2 0).1
    simpa using h135

/-- C1 counterexample: the Later band is not interpolated by fractional
position within the band.  For a node 8 days out with a 16-day horizon the
source returns `310 + min(1, dt/horizon)·80 = 350`, while interpolation by
fractional position within `(7d, horizon]` (the wording of the spec,
`radiusFracPosSpec`) would give `310 + 80/9 ≈ 318.9`. -/
theorem radiusForTime_later_band_not_fracPos :
    radiusForTime { starts_at := some 691200000 } 0 1382400 = 350
  ∧ radiusFracPosSpec 691200 1382400 = 310 + 80 / 9
  ∧ (350 : ℚ) ≠ 310 + 80 / 9 := by
  refine ⟨?_, ?_, by norm_num⟩
  · norm_num [radiusForTime, band0, band1, band2]
  · norm_num [radiusFracPosSpec]

/-- C4 (amended): within the Today band `radiusForTime` is monotonically
non-decreasing in the timestamp; but it is *not* continuous at the band
boundaries: at `dt = 24h` the radius is exactly 190 while any timestamp
strictly beyond `24h` yields a radius above 210, and at `dt = 7d` the radius
is exactly 290 while any timestamp strictly beyond `7d` yields a radius
above 310 — jumps of more than 20 layout units (the deliberate gaps between
the ring bands). -/
theorem radiusForTime_today_monotone_boundary_jumps :
    (∀ (n₁ n₂ : GraphNode) (now h ts₁ ts₂ : ℚ),
        n₁.starts_at = some ts₁ → n₂.starts_at = some ts₂ →
        ts₁ ≤ ts₂ → ts₂ ≤ now + 24 * 3600 * 1000 →
        radiusForTime n₁ now h ≤ radiusForTime n₂ now h)
  ∧ (∀ now h : ℚ,
        radiusForTime { starts_at := some (now + 24 * 3600 * 1000) } now h = 190)
  ∧ (∀ (now h ts : ℚ), now + 24 * 3600 * 1000 < ts →
        210 < radiusForTime { starts_at := some ts } now h)
  ∧ (∀ now h : ℚ,
        radiusForTime { starts_at := some (now + 7 * 24 * 3600 * 1000) } now h
          = 290)
  ∧ (∀ (now h ts : ℚ), now + 7 * 24 * 3600 * 1000 < ts →
        310 ≤ radiusForTime { starts_at := some ts } now h) := by
  refine ⟨?_, ?_, ?_, ?_, ?_⟩
  · intro n₁ n₂ now h ts₁ ts₂ hst₁ hst₂ hle hband
    have hq12 : (ts₁ - now) / 1000 ≤ (ts₂ - now) / 1000 := by linarith
    have hd2 : max 0 ((ts₂ - now) / 1000) ≤ 24 * 3600 :=
      max_le (by norm_num) (by linarith)
    have hd1 : max 0 ((ts₁ - now) / 1000) ≤ 24 * 3600 :=
      le_trans (max_le_max (le_refl 0) hq12) hd2
    rw [radiusForTime_band0_value n₁ now h ts₁ hst₁ hd1,
        radiusForTime_band0_value n₂ now h ts₂ hst₂ hd2]
    have hdd : max 0 ((ts₁ - now) / 1000) ≤ max 0 ((ts₂ - now) / 1000) :=
      max_le_max (le_refl 0) hq12
    linarith
  · intro now h
    have harg : (now + 24 * 3600 * 1000 - now) / 1000 = 86400 := by ring
    have hd : max 0 ((now + 24 * 3600 * 1000 - now) / 1000) ≤ 24 * 3600 := by
      rw [harg]
      norm_num
    rw [radiusForTime_band0_value { starts_at := some (now + 24 * 3600 * 1000) } now h _ rfl hd, harg]
    norm_num
  · intro now h ts hts
    have hq : 24 * 3600 < (ts - now) / 1000 := by linarith
    have hgt : ¬ max 0 ((ts - now) / 1000) ≤ 24 * 3600 := by
      push_neg
      exact lt_of_lt_of_le hq (le_max_right _ _)
    by_cases h2 : max 0 ((ts - now) / 1000) ≤ 7 * 24 * 3600
    · rw [radiusForTime_band1_value { starts_at := some ts } now h ts rfl hgt h2]
      have hlt : 24 * 3600 < max 0 ((ts - now) / 1000) :=
        lt_of_lt_of_le hq (le_max_right _ _)
      nlinarith
    · have hlow := radiusForTime_band2_lower { starts_at := some ts } now h ts rfl h2
      linarith
  · intro now h
    have harg : (now + 7 * 24 * 3600 * 1000 - now) / 1000 = 604800 := by ring
    have hgt : ¬ max 0 ((now + 7 * 24 * 3600 * 1000 - now) / 1000) ≤ 24 * 3600 := by
      rw [harg]
      norm_num
    have hd : max 0 ((now + 7 * 24 * 3600 * 1000 - now) / 1000) ≤ 7 * 24 * 3600 := by
      rw [harg]
      norm_num
    rw [radiusForTime_band1_value { starts_at := some (now + 7 * 24 * 3600 * 1000) } now h _ rfl hgt hd, harg]
    norm_num
  · intro now h ts hts
    have hq : 7 * 24 * 3600 < (ts - now) / 1000 := by linarith
    have h2 : ¬ max 0 ((ts - now) / 1000) ≤ 7 * 24 * 3600 := by
      push_neg
      exact lt_of_lt_of_le hq (le_max_right _ _)
    exact radiusForTime_band2_lower { starts_at := some ts } now h ts rfl h2

/-- Witness for C4 (amended) at concrete inputs: with `now = 0` and horizon
14 days, a node 1 hour out has a radius no larger than one 2 hours out; the
radius at exactly 24 hours is 190, at 24 hours + 1 second it exceeds 210; at
exactly 7 days it is 290, at 7 days + 1 second it is at least 310. -/
theorem radiusForTime_today_monotone_boundary_jumps_witness :
    radiusForTime { starts_at := some 3600000 } 0 1209600
      ≤ radiusForTime { starts_at := some 7200000 } 0 1209600
  ∧ radiusForTime { starts_at := some (0 + 24 * 3600 * 1000) } 0 1209600 = 190
  ∧ 210 < radiusForTime { starts_at := some 86401000 } 0 1209600
  ∧ radiusForTime { starts_at := some (0 + 7 * 24 * 3600 * 1000) } 0 1209600 = 290
  ∧ 310 ≤ radiusForTime { starts_at := some 604801000 } 0 1209600 := by
  refine ⟨?_, ?_, ?_, ?_, ?_⟩
  · exact radiusForTime_today_monotone_boundary_jumps.1
      { starts_at := some 3600000 } { starts_at := some 7200000 }
      0 1209600 3600000 7200000 rfl rfl (by norm_num) (by norm_num)
  · exact radiusForTime_today_monotone_boundary_jumps.2.1 0 1209600
  · exact radiusForTime_today_monotone_boundary_jumps.2.2.1 0 1209600 86401000
      (by norm_num)
  · exact radiusForTime_today_monotone_boundary_jumps.2.2.2.1 0 1209600
  · exact radiusForTime_today_monotone_boundary_jumps.2.2.2.2 0 1209600 604801000
      (by norm_num)

/-- C4 counterexample: `radiusForTime` is not continuous at the band
boundaries.  With a 14-day horizon, moving the timestamp by one second
across the 24-hour boundary jumps the radius from exactly 190 to beyond 210
(a gap of more than 20 layout units, far beyond floating-point tolerance),
and across the 7-day boundary from exactly 290 to 350. -/
theorem radiusForTime_boundary_discontinuity :
    radiusForTime { starts_at := some 86400000 } 0 1209600 = 190
  ∧ 210 < radiusForTime { starts_at := some 86401000 } 0 1209600
  ∧ radiusForTime { starts_at := some 604800000 } 0 1209600 = 290
  ∧ radiusForTime { starts_at := some 604801000 } 0 1209600
      = 310 + (604801 / 1209600) * 80 := by
  refine ⟨?_, ?_, ?_, ?_⟩
  · norm_num [radiusForTime, band0, band1, band2]
  · norm_num [radiusForTime, band0, band1, band2]
  · norm_num [radiusForTime, band0, band1, band2]
  · norm_num [radiusForTime, band0, band1, band2]

/-- C5: `angleForEvent` returns `frac(|hashStr(id)| * 0.61803398875)` (a
fraction of a full turn, multiplied by `2π` in the source), which lies in
`[0, 1)` — so the angle lies in `[0, 2π)` — and is a deterministic pure
function of the id alone: two calls with the same id yield identical
output. -/
theorem angleForEvent_spec (id : String) :
    angleForEvent id = jsMod1 (((hashStr id).natAbs : ℚ) * phi)
  ∧ 0 ≤ angleForEvent id ∧ angleForEvent id < 1
  ∧ 0 ≤ (angleForEvent id : ℝ) * (2 * Real.pi)
  ∧ (angleForEvent id : ℝ) * (2 * Real.pi) < 2 * Real.pi
  ∧ angleForEvent id = angleForEvent id := by
  have hfract : angleForEvent id = Int.fract (((hashStr id).natAbs : ℚ) * phi) := rfl
  have h0 : 0 ≤ angleForEvent id := by
    rw [hfract]
    exact Int.fract_nonneg _
  have h1 : angleForEvent id < 1 := by
    rw [hfract]
    exact Int.fract_lt_one _
  have h0R : (0 : ℝ) ≤ (angleForEvent id : ℝ) := by exact_mod_cast h0
  have h1R : (angleForEvent id : ℝ) < 1 := by exact_mod_cast h1
  refine ⟨rfl, h0, h1, ?_, ?_, rfl⟩
  · exact mul_nonneg h0R (by positivity)
  · calc (angleForEvent id : ℝ) * (2 * Real.pi)
        < 1 * (2 * Real.pi) := mul_lt_mul_of_pos_right h1R (by positivity)
    _ = 2 * Real.pi := one_mul _

/-- C6: `topicColor` sends a missing (`null`), empty, or case-insensitive
`"other"` topic to the reserved pastel fallback color; every other
(trimmed, non-empty) topic string is sent by hash-modulo into the fixed
8-color palette; the fallback color is not a palette entry; and the mapping
is a deterministic pure function of the topic string, identical across
fetches. -/
theorem topicColor_spec :
    topicColor none = OTHER_TOPIC_COLOR
  ∧ topicColor (some "") = OTHER_TOPIC_COLOR
  ∧ (∀ s : String, jsToLower (jsTrim s) = "other" →
      topicColor (some s) = OTHER_TOPIC_COLOR)
  ∧ (∀ s : String, (jsTrim s).length ≠ 0 → jsToLower (jsTrim s) ≠ "other" →
      topicColor (some s) ∈ TOPIC_COLORS)
  ∧ OTHER_TOPIC_COLOR ∉ TOPIC_COLORS
  ∧ (∀ s : String, topicColor (some s) = topicColor (some s)) := by
  refine ⟨rfl, rfl, ?_, ?_, by decide, fun s => rfl⟩
  · intro s hother
    by_cases hs : s = ""
    · simp only [topicColor, if_pos hs]
    · simp only [topicColor, if_neg hs]
      by_cases hlen : (jsTrim s).length = 0
      · rw [if_pos hlen]
      · rw [if_neg hlen, if_pos hother]
  · intro s hlen hother
    have hs : s ≠ "" := by
      intro hs
      rw [hs] at hlen
      exact hlen (by decide)
    simp only [topicColor, if_neg hs]
    rw [if_neg hlen, if_neg hother]
    have hlen8 : TOPIC_COLORS.length = 8 := rfl
    rw [hlen8]
    have hlt : (hashStr (jsTrim s)).natAbs % 8 < 8 := Nat.mod_lt _ (by norm_num)
    set k := (hashStr (jsTrim s)).natAbs % 8 with hk
    clear_value k
    interval_cases k <;> decide

/-- Witness for C6 at concrete topics: `" Other "` (case-insensitive
"other" after trimming) resolves to the fallback color, and `"Music"`
resolves to a palette entry. -/
theorem topicColor_spec_witness :
    topicColor (some " Other ") = OTHER_TOPIC_COLOR
  ∧ topicColor (some "Music") ∈ TOPIC_COLORS := by
  constructor
  · exact topicColor_spec.2.2.1 " Other " (by decide)
  · exact topicColor_spec.2.2.2.1 "Music" (by decide) (by decide)

/-- C2 refutation at the failing input: the source has no degenerate-score
guard — `nodeValScale` divides by `max(scores) - min(scores)`, so whenever
all scores are equal (a single node, or three nodes of score 5) the JS
expression is `60*(0.4 + 0/0) = NaN` (modelled by `none`): no finite
midpoint size is produced.  A non-degenerate set (scores 1 and 3) shows the
model computing the finite source value 84 as usual. -/
theorem nodeValScale_degenerate_not_finite :
    nodeValScale [5] 5 = none
  ∧ nodeValScale [5, 5, 5] 5 = none
  ∧ nodeValScale [1, 3] 3 = some 84 := by
  refine ⟨by simp [nodeValScale], by simp [nodeValScale], ?_⟩
  simp [nodeValScale]
  norm_num

/-- C3: the working set is exactly the top 10 event-type nodes by
descending score with ties broken by original payload order: it is the
10-prefix of a stable descending sort of the event-filtered payload (a
permutation of that filter, sorted by descending score); only event-type
nodes participate; its length is `min 10 (number of event nodes)` — no
further filtering; every working-set node outscores (or ties) every
left-out event node; and the sort is stable (an in-order pair with
non-increasing scores stays in order). -/
theorem eventNodes_top_ten (nodes : List GraphNode) :
    eventNodes nodes = (sortByScoreDesc (nodes.filter isEventNode)).take 10
  ∧ List.Perm (sortByScoreDesc (nodes.filter isEventNode)) (nodes.filter isEventNode)
  ∧ (sortByScoreDesc (nodes.filter isEventNode)).Pairwise
      (fun a b => b.score ≤ a.score)
  ∧ (∀ n ∈ eventNodes nodes, isEventNode n = true)
  ∧ (eventNodes nodes).length = min 10 (nodes.filter isEventNode).length
  ∧ (∀ a ∈ eventNodes nodes,
      ∀ b ∈ (sortByScoreDesc (nodes.filter isEventNode)).drop 10, b.score ≤ a.score)
  ∧ (∀ a b : GraphNode, b.score ≤ a.score →
      [a, b].Sublist (nodes.filter isEventNode) →
      [a, b].Sublist (sortByScoreDesc (nodes.filter isEventNode))) := by
  refine ⟨rfl, sortByScoreDesc_perm _, sortByScoreDesc_pairwise _, ?_, ?_, ?_, ?_⟩
  · intro n hn
    have hmem : n ∈ sortByScoreDesc (nodes.filter isEventNode) :=
      (List.take_sublist 10 _).subset hn
    exact List.of_mem_filter ((sortByScoreDesc_perm _).mem_iff.mp hmem)
  · have hlen := (sortByScoreDesc_perm (nodes.filter isEventNode)).length_eq
    rw [eventNodes, List.length_take, hlen]
  · intro a ha b hb
    have hpw := sortByScoreDesc_pairwise (nodes.filter isEventNode)
    rw [← List.take_append_drop 10 (sortByScoreDesc (nodes.filter isEventNode))]
      at hpw
    exact (List.pairwise_append.mp hpw).2.2 a ha b hb
  · intro a b hba hsub
    exact sortByScoreDesc_stable a b _ hsub hba

/-- Witness for C3 at the concrete examples of the spec: the 15-node descending
payload yields exactly its 10 highest-scored nodes in order, the 10th/11th
tie is broken in favor of the earlier payload node, and the general theorem
instantiates at `ex15`. -/
theorem eventNodes_top_ten_witness :
    eventNodes ex15 = ex15.take 10
  ∧ eventNodes exTie = exTie.take 10
  ∧ (∀ n ∈ eventNodes ex15, isEventNode n = true) := by
  refine ⟨by decide, by decide, (eventNodes_top_ten ex15).2.2.2.1⟩

/-- C8 (amended): a node whose `type` is missing or not `event` is excluded
from the working set by the type filter, and its presence in the payload
does not disturb the processing of the remaining nodes; but a node of type
`event` that is missing its `id` is *not* excluded (the source filters on
`type` only). -/
theorem eventNodes_type_filter (nodes : List GraphNode) (n m : GraphNode) :
    (n ∈ eventNodes nodes → n.type = some NodeType.event)
  ∧ (m.type ≠ some NodeType.event → eventNodes (m :: nodes) = eventNodes nodes) := by
  constructor
  · intro hn
    have hmem : n ∈ sortByScoreDesc (nodes.filter isEventNode) :=
      (List.take_sublist 10 _).subset hn
    have hf := List.of_mem_filter ((sortByScoreDesc_perm _).mem_iff.mp hmem)
    simpa [isEventNode] using hf
  · intro hm
    have hfalse : isEventNode m = false := by
      simp [isEventNode, hm]
    rw [eventNodes, eventNodes, List.filter_cons, hfalse]
    simp

/-- Witness for C8 (amended) at a concrete payload: a person-type node is
dropped and does not disturb the single event node behind it. -/
theorem eventNodes_type_filter_witness :
    eventNodes [{ type := some NodeType.person, score := 9 },
                { type := some NodeType.event, score := 5 }]
      = eventNodes [{ type := some NodeType.event, score := 5 }]
  ∧ (({ type := some NodeType.event, score := 5 } : GraphNode) ∈
      eventNodes [{ type := some NodeType.event, score := 5 }] →
      ({ type := some NodeType.event, score := 5 } : GraphNode).type
        = some NodeType.event) := by
  constructor
  · exact (eventNodes_type_filter [{ type := some NodeType.event, score := 5 }]
      { type := some NodeType.event, score := 5 }
      { type := some NodeType.person, score := 9 }).2 (by decide)
  · exact (eventNodes_type_filter [{ type := some NodeType.event, score := 5 }]
      { type := some NodeType.event, score := 5 }
      { type := some NodeType.person, score := 9 }).1

/-- C8 counterexample: a node missing its required `id` (but typed `event`)
is *not* excluded from the working set — after enrichment it is the working
set, carrying the junk `event_id` `"undefined"` that JS string conversion
produces. -/
theorem malformed_node_in_working_set :
    eventNodes (enriched [noIdNode]) = [enrich noIdNode]
  ∧ (enrich noIdNode).id = none
  ∧ (enrich noIdNode).type = some NodeType.event
  ∧ (enrich noIdNode).event_id = some "undefined" := by decide

/-- C9: clicking a node triggers navigation if and only if the node has
type `event` and carries a (non-empty, hence JS-truthy) derived `event_id`;
when it does, a supplied callback is invoked with that id, otherwise the
location changes to the event-detail path containing the (URI-encoded) id;
an event node without an `event_id` produces no navigation (and the handler
is a total function — it never throws). -/
theorem handleNodeClick_spec (hasCb : Bool) (enc : String → String)
    (n : GraphNode) :
    (handleNodeClick hasCb enc n ≠ ClickAction.noNav ↔
      n.type = some NodeType.event ∧ ∃ s, n.event_id = some s ∧ s ≠ "")
  ∧ (n.type = some NodeType.event → n.event_id = none →
      handleNodeClick hasCb enc n = ClickAction.noNav)
  ∧ (∀ s : String, n.type = some NodeType.event → n.event_id = some s →
      s ≠ "" →
      handleNodeClick true enc n = ClickAction.callbackNav s
      ∧ handleNodeClick false enc n
          = ClickAction.locationNav ("/events/eventpage/" ++ enc s)) := by
  have hcond : (n.type == some NodeType.event && truthyId n.event_id) = true ↔
      (n.type = some NodeType.event ∧ ∃ s, n.event_id = some s ∧ s ≠ "") := by
    constructor
    · intro h
      have hsplit : (n.type == some NodeType.event) = true
          ∧ truthyId n.event_id = true := by simpa using h
      rcases hsplit with ⟨h1, h2⟩
      refine ⟨beq_iff_eq.mp h1, ?_⟩
      cases he : n.event_id with
      | none =>
        rw [he] at h2
        exact absurd h2 (by simp [truthyId])
      | some s =>
        rw [he] at h2
        exact ⟨s, rfl, by simpa [truthyId] using h2⟩
    · rintro ⟨h1, s, hs, hne⟩
      have h2 : truthyId n.event_id = true := by
        rw [hs]
        simpa [truthyId] using hne
      simp [beq_iff_eq.mpr h1, h2]
  refine ⟨?_, ?_, ?_⟩
  · constructor
    · intro hne
      by_cases hc : (n.type == some NodeType.event && truthyId n.event_id) = true
      · exact hcond.mp hc
      · exfalso
        apply hne
        unfold handleNodeClick
        rw [if_neg hc]
    · intro hyp
      have hc := hcond.mpr hyp
      unfold handleNodeClick
      rw [if_pos hc]
      cases hasCb <;> simp
  · intro h1 he
    have hc : (n.type == some NodeType.event && truthyId n.event_id) = false := by
      rw [he]
      simp [truthyId]
    unfold handleNodeClick
    rw [hc]
    rfl
  · intro s h1 hs hne
    have hc : (n.type == some NodeType.event && truthyId n.event_id) = true :=
      hcond.mpr ⟨h1, s, hs, hne⟩
    constructor
    · unfold handleNodeClick
      rw [if_pos hc]
      simp [hs]
    · unfold handleNodeClick
      rw [if_pos hc]
      simp [hs]

/-- Witness for C9 at concrete nodes: with a callback supplied, an event
node with `event_id = "42"` navigates through the callback; an event node
with no `event_id` does nothing; and without a callback the location
changes to the event-detail path. -/
theorem handleNodeClick_spec_witness :
    handleNodeClick true (fun s => s)
      { type := some NodeType.event, event_id := some "42" }
      = ClickAction.callbackNav "42"
  ∧ handleNodeClick true (fun s => s) { type := some NodeType.event }
      = ClickAction.noNav
  ∧ handleNodeClick false (fun s => s)
      { type := some NodeType.event, event_id := some "42" }
      = ClickAction.locationNav "/events/eventpage/42" := by
  refine ⟨?_, ?_, ?_⟩
  · exact ((handleNodeClick_spec true (fun s => s)
      { type := some NodeType.event, event_id := some "42" }).2.2
        "42" rfl rfl (by decide)).1
  · exact (handleNodeClick_spec true (fun s => s)
      { type := some NodeType.event }).2.1 rfl rfl
  · exact ((handleNodeClick_spec false (fun s => s)
      { type := some NodeType.event, event_id := some "42" }).2.2
        "42" rfl rfl (by decide)).2
